import Mathlib

/- Verification of the cache-key derivation, code-fence stripping and
   generation state machines of the `anything` library (anything.py).

   Python strings are modelled as Lean `String`; Python runtime values as the
   inductive `PyVal` (a value carries the name of its class, which is all the
   library ever inspects); external effects — the generation endpoint, `exec`,
   `hashlib.sha256` — are oracle parameters of the definitions.  Literal brace
   characters are written with the escapes \x7b and \x7d, and the single-quote
   character with \x27. -/

/-- Characters removed by Python `str.strip()` (ASCII whitespace). -/
def pyIsSpace (c : Char) : Bool :=
  c = ' ' || c = '\t' || c = '\n' || c = '\x0d' || c = '\x0b' || c = '\x0c'

/-- Python `s.strip()`: drop leading and trailing whitespace. -/
def pyStrip (s : String) : String :=
  ⟨((s.data.dropWhile pyIsSpace).reverse.dropWhile pyIsSpace).reverse⟩

/-- Python `s.startswith(p)`. -/
def pyStartsWith (s p : String) : Bool :=
  p.data.isPrefixOf s.data

/-- Python slice `s[a:-b]` (for literal nonnegative `a`, positive `b`):
    the characters at indices `a ≤ i < len s - b`, clamped like Python. -/
def pySliceDrop (s : String) (a b : Nat) : String :=
  ⟨(s.data.take (s.data.length - b)).drop a⟩

/-- `_clean_code` (anything.py lines 25-30): strip a leading
    ```python fence (9 characters) or a bare ``` fence (3 characters)
    together with the last 3 characters, then `strip()`. -/
def _clean_code (content : String) : String :=
  if pyStartsWith content "```python" then pyStrip (pySliceDrop content 9 3)
  else if pyStartsWith content "```" then pyStrip (pySliceDrop content 3 3)
  else pyStrip content

/-- A Python runtime value, as far as the library inspects one: only
    `type(v).__name__` is ever used, so a value is its payload plus the class
    name; `obj s` stands for an instance of any other class named `s`. -/
inductive PyVal where
  | int (n : Int)
  | str (s : String)
  | bool (b : Bool)
  | none
  | list (elems : List PyVal)
  | obj (clsName : String)

/-- Python `type(v).__name__`. -/
def PyVal.pyTypeName : PyVal → String
  | .int _ => "int"
  | .str _ => "str"
  | .bool _ => "bool"
  | .none => "NoneType"
  | .list _ => "list"
  | .obj c => c

/-- One character of Python `repr` of a string, given the chosen quote
    character: escape backslash, the quote and the common control characters. -/
def pyEscChar (q c : Char) : String :=
  if c = '\\' then "\\\\"
  else if c = q then "\\" ++ String.singleton q
  else if c = '\n' then "\\n"
  else if c = '\x0d' then "\\r"
  else if c = '\t' then "\\t"
  else String.singleton c

/-- Python `c in s` for a character. -/
def pyContainsChar (s : String) (c : Char) : Bool :=
  s.data.contains c

/-- Python `repr` of a string: single quotes, except double quotes when the
    string contains a single quote but no double quote. -/
def pyReprStr (s : String) : String :=
  let q : Char := if pyContainsChar s '\x27' && !(pyContainsChar s '"') then '"' else '\x27'
  String.singleton q ++ String.join (s.data.map (pyEscChar q)) ++ String.singleton q

/-- Python `sep.join(parts)`. -/
def joinSep (sep : String) : List String → String
  | [] => ""
  | [x] => x
  | x :: y :: xs => x ++ sep ++ joinSep sep (y :: xs)

/-- Python `str` of a list of strings, as interpolated by an f-string:
    `['int', 'str']`. -/
def pyReprStrList (l : List String) : String :=
  "[" ++ joinSep ", " (l.map pyReprStr) ++ "]"

/-- Python `str` of a dict mapping strings to strings, as interpolated by an
    f-string: `\x7b'a': 'int'\x7d` (insertion order preserved). -/
def pyReprStrDict (d : List (String × String)) : String :=
  "\x7b" ++ joinSep ", " (d.map fun p => pyReprStr p.1 ++ ": " ++ pyReprStr p.2) ++ "\x7d"

/-- `_get_cache_key` (anything.py lines 19-22):
    `f"{func_name}_{arg_types}_{kwarg_types}"` where `arg_types` is the list of
    positional-argument class names and `kwarg_types` the dict of keyword
    argument names to class names. -/
def _get_cache_key (func_name : String) (args : List PyVal)
    (kwargs : List (String × PyVal)) : String :=
  let arg_types := args.map PyVal.pyTypeName
  let kwarg_types := kwargs.map fun p => (p.1, p.2.pyTypeName)
  func_name ++ "_" ++ pyReprStrList arg_types ++ "_" ++ pyReprStrDict kwarg_types

/-- `BaseGenerator._get_cache_path` (anything.py lines 52-54):
    `cache_dir / f"{id_}_{hash_key}.py"`, where `hash_key` is the sha256 hex
    digest of the key, modelled by the oracle `hashHex`. -/
def _get_cache_path (hashHex : String → String) (cacheDir id_ cacheKey : String) : String :=
  cacheDir ++ "/" ++ id_ ++ "_" ++ hashHex cacheKey ++ ".py"

/-- Python `repr` of a class object: `<class 'int'>`. -/
def pyReprClass (t : String) : String :=
  "<class " ++ pyReprStr t ++ ">"

/-- f-string rendering of an `__annotations__` dict (string keys, class
    values). -/
def pyReprClsDict (d : List (String × String)) : String :=
  "\x7b" ++ joinSep ", " (d.map fun p => pyReprStr p.1 ++ ": " ++ pyReprClass p.2) ++ "\x7d"

/-- A declared Python function as the library sees it: `__name__`, `__doc__`
    (already rendered, `"None"` when absent) and `__annotations__` as an
    ordered association list from argument name to class name. -/
structure PyFunc where
  name : String
  doc : String
  annots : List (String × String)
deriving DecidableEq, Repr

/-- `_get_function_signature` (anything.py lines 12-16): pop `"return"` from a
    copy of the annotations (default rendering `"None"`) and format the
    signature line. -/
def _get_function_signature (f : PyFunc) : String :=
  let return_type := match f.annots.lookup "return" with
    | some t => pyReprClass t
    | Option.none => "None"
  let annots := f.annots.filter fun p => !(p.1 == "return")
  "Function: " ++ f.name ++ ", Doc: " ++ f.doc ++ ", Args: " ++
    pyReprClsDict annots ++ ", Return: " ++ return_type

/-! ### Injectivity of the cache key on argument-type shapes

The cache key is the f-string `f"{func_name}_{arg_types}_{kwarg_types}"`.  For
type names and keyword names built from identifier characters (every name
introduced by a Python `class` or `def` statement is), the rendered key
determines the two shapes.  The development works on the character lists
underlying the rendered fragments. -/

/-- A character a Python identifier is made of. -/
def simpleChar (c : Char) : Bool := c.isAlphanum || c = '_'

/-- A name made only of identifier characters (as `class` and argument names
    are). -/
def simpleName (s : String) : Bool := s.data.all simpleChar

/-- Characters of the single-quoted repr of a quote-free name. -/
def quotedChars (x : List Char) : List Char := '\x27' :: x ++ ['\x27']

/-- Characters of the inside of a Python list repr over quote-free names. -/
def joinQ : List (List Char) → List Char
  | [] => []
  | [x] => quotedChars x
  | x :: y :: xs => quotedChars x ++ ',' :: ' ' :: joinQ (y :: xs)

/-- Characters of one `key: value` entry of a Python dict repr. -/
def entryQ (p : List Char × List Char) : List Char :=
  quotedChars p.1 ++ ':' :: ' ' :: quotedChars p.2

/-- Characters of the inside of a Python dict repr over quote-free names. -/
def joinD : List (List Char × List Char) → List Char
  | [] => []
  | [p] => entryQ p
  | p :: q :: ps => entryQ p ++ ',' :: ' ' :: joinD (q :: ps)

/-- The tail a list-repr entry is followed by: nothing, or a comma-space and
    the rest. -/
def tailQ : List (List Char) → List Char
  | [] => []
  | y :: ys => ',' :: ' ' :: joinQ (y :: ys)

/-- The tail a dict-repr entry is followed by. -/
def tailD : List (List Char × List Char) → List Char
  | [] => []
  | q :: ps => ',' :: ' ' :: joinD (q :: ps)

/-! ### The generation pipeline as a state machine

External effects are collected in `PyExt`: the endpoint call (`llm`, `none`
modelling a raised transport error), `exec` into a namespace (`execO`,
`.error` modelling a raised exception with the namespace as mutated so far),
Python truthiness of a looked-up value (`truthy`), calling a generated
callable (`applyF`, `none` modelling a raise), the sha256 hex digest
(`hashHex`) and `str()` of a generated value (`pyStr`). -/

structure PyExt (α : Type) where
  llm : String → String → Option String
  execO : String → List (String × α) → Except (List (String × α)) (List (String × α))
  truthy : α → Bool
  applyF : α → List PyVal → List (String × PyVal) → Option α
  hashHex : String → String
  pyStr : Option α → String

/-- Python dict assignment `d[k] = v`: replace in place if the key exists,
    append otherwise. -/
def dictInsert {α : Type} (d : List (String × α)) (k : String) (v : α) :
    List (String × α) :=
  if (d.lookup k).isSome then d.map (fun p => if p.1 = k then (k, v) else p)
  else d ++ [(k, v)]

/-- The mutable world a `BaseGenerator` instance touches: its `cache_dir`, the
    on-disk cache (path → file text), the shared execution namespace
    `self._env`, and the number of generation-endpoint calls made so far. -/
structure AnyState (α : Type) where
  cacheDir : String
  cache : List (String × String)
  env : List (String × α)
  calls : Nat

/-- `_save_to_cache` (anything.py lines 33-35). -/
def _save_to_cache {α : Type} (st : AnyState α) (cache_path code : String) : AnyState α :=
  { st with cache := dictInsert st.cache cache_path code }

/-- `BaseGenerator._load_from_cache` (lines 56-64): on a cache hit execute the
    cached text in the shared namespace and return `self._env.get(func_name)`
    (`none` when absent); a miss returns `none` without executing anything. -/
def _load_from_cache {α : Type} (E : PyExt α) (st : AnyState α)
    (cache_path func_name : String) :
    Except (AnyState α) (Option α × AnyState α) :=
  match st.cache.lookup cache_path with
  | some code =>
    match E.execO code st.env with
    | .error env1 => .error { st with env := env1 }
    | .ok env1 => .ok (env1.lookup func_name, { st with env := env1 })
  | Option.none => .ok (Option.none, st)

/-- `BaseGenerator._generate_code` (lines 66-81): one endpoint call, reply
    cleaned of fencing; a transport error is re-raised. -/
def _generate_code {α : Type} (E : PyExt α) (st : AnyState α)
    (system_prompt user_prompt : String) :
    Except (AnyState α) (String × AnyState α) :=
  let st1 := { st with calls := st.calls + 1 }
  match E.llm system_prompt user_prompt with
  | Option.none => .error st1
  | some content => .ok (_clean_code content, st1)

/-- `BaseGenerator._execute_code` (lines 83-90): `exec` in the shared
    namespace, then `self._env[func_name]`; a `KeyError` on the absent name is
    re-raised. -/
def _execute_code {α : Type} (E : PyExt α) (st : AnyState α) (code func_name : String) :
    Except (AnyState α) (α × AnyState α) :=
  match E.execO code st.env with
  | .error env1 => .error { st with env := env1 }
  | .ok env1 =>
    match env1.lookup func_name with
    | some f => .ok (f, { st with env := env1 })
    | Option.none => .error { st with env := env1 }

/-- The system prompt of `Anything` (lines 96-99). -/
def anything_system_prompt : String :=
  "Generate Python function code based on function signature and docstring. Return only the function implementation without explanations or function calls."

/-- The cache-miss tail of `Anything.__call__` (lines 112-121): build the user
    prompt, generate, execute, and only then save to the cache. -/
def anything_generate {α : Type} (E : PyExt α) (st : AnyState α) (func : PyFunc)
    (context cache_path : String) :
    Except (AnyState α) (α × AnyState α) :=
  let signature := _get_function_signature func
  let user_prompt := if context = "" then signature
    else "Context of related functions:\n" ++ context ++ "\n\nGenerate code for:\n" ++ signature
  match _generate_code E st anything_system_prompt user_prompt with
  | .error st1 => .error st1
  | .ok (code, st1) =>
    match _execute_code E st1 code func.name with
    | .error st2 => .error st2
    | .ok (func_impl, st2) => .ok (func_impl, _save_to_cache st2 cache_path code)

/-- `Anything.__call__` (lines 101-121): derive the cache path from the
    signature plus context, try the disk cache (a falsy cached value falls
    through to generation), otherwise generate. -/
def anything_call {α : Type} (E : PyExt α) (st : AnyState α) (func : PyFunc)
    (context : String) :
    Except (AnyState α) (α × AnyState α) :=
  let signature := _get_function_signature func
  let cache_key := signature ++ context
  let cache_path := _get_cache_path E.hashHex st.cacheDir func.name cache_key
  match _load_from_cache E st cache_path func.name with
  | .error st1 => .error st1
  | .ok (cached, st1) =>
    match cached with
    | some f =>
      if E.truthy f then .ok (f, st1)
      else anything_generate E st1 func context cache_path
    | Option.none => anything_generate E st1 func context cache_path

/-- The state of a `LazyAnything` instance (lines 124-129): the inner
    `Anything` generator, `self._registered_functions`,
    `self._pending_functions`, and `self._generated`. -/
structure LazyState (α : Type) where
  generator : AnyState α
  registered : List (String × α)
  pending : List (String × PyFunc)
  generated : Bool

/-- `LazyAnything.register` (lines 131-144): record the declared function
    under its name; the returned wrapper is modelled by `lazy_wrapper_call`. -/
def lazy_register {α : Type} (st : LazyState α) (func : PyFunc) : LazyState α :=
  { st with pending := dictInsert st.pending func.name func }

/-- `LazyAnything._build_context` (lines 146-151). -/
def lazy_build_context {α : Type} (st : LazyState α) : String :=
  joinSep "\n" (st.pending.map fun p => _get_function_signature p.2)

/-- The loop of `_generate_all` (lines 160-162), generating each pending
    function with the shared context; an exception aborts mid-loop with the
    registrations made so far kept. -/
def lazy_generate_all_loop {α : Type} (E : PyExt α) (context : String) :
    List (String × PyFunc) → LazyState α → Except (LazyState α) (LazyState α)
  | [], st => .ok st
  | (name, func) :: rest, st =>
    match anything_call E st.generator func context with
    | .error g1 => .error { st with generator := g1 }
    | .ok (impl, g1) =>
      lazy_generate_all_loop E context rest
        { st with generator := g1, registered := dictInsert st.registered name impl }

/-- `LazyAnything._generate_all` (lines 153-165): a no-op once
    `self._generated` is set; otherwise generate every pending function with
    the full context and set the flag. -/
def lazy_generate_all {α : Type} (E : PyExt α) (st : LazyState α) :
    Except (LazyState α) (LazyState α) :=
  if st.generated then .ok st
  else
    let context := lazy_build_context st
    match lazy_generate_all_loop E context st.pending st with
    | .error st1 => .error st1
    | .ok st1 => .ok { st1 with generated := true }

/-- `LazyAnything.generate_all` (lines 167-168). -/
def lazy_generate_all_pub {α : Type} (E : PyExt α) (st : LazyState α) :
    Except (LazyState α) (LazyState α) :=
  lazy_generate_all E st

/-- `LazyAnything.finalize` (lines 170-171). -/
def lazy_finalize {α : Type} (E : PyExt α) (st : LazyState α) :
    Except (LazyState α) (LazyState α) :=
  lazy_generate_all E st

/-- The wrapper returned by `register` (lines 135-138): trigger generation if
    it has not fired, then look the name up in the registered map (`KeyError`,
    modelled as `.error`, when absent) and call it. -/
def lazy_wrapper_call {α : Type} (E : PyExt α) (st : LazyState α) (func_name : String)
    (args : List PyVal) (kwargs : List (String × PyVal)) :
    Except (LazyState α) (α × LazyState α) :=
  match (if st.generated then .ok st else lazy_generate_all E st :
      Except (LazyState α) (LazyState α)) with
  | .error st1 => .error st1
  | .ok st1 =>
    match st1.registered.lookup func_name with
    | Option.none => .error st1
    | some f =>
      match E.applyF f args kwargs with
      | Option.none => .error st1
      | some r => .ok (r, st1)

/-- The operations a caller can perform on a `LazyAnything` instance after
    construction: register a function, fire the trigger, call a wrapper. -/
inductive LazyOp where
  | register (func : PyFunc)
  | trigger
  | call (func_name : String) (args : List PyVal) (kwargs : List (String × PyVal))

/-- One caller operation; a raised exception propagates to the caller but the
    mutated instance state persists. -/
def lazy_step {α : Type} (E : PyExt α) (st : LazyState α) : LazyOp → LazyState α
  | .register f => lazy_register st f
  | .trigger =>
    match lazy_generate_all E st with
    | .error st1 => st1
    | .ok st1 => st1
  | .call n a k =>
    match lazy_wrapper_call E st n a k with
    | .error st1 => st1
    | .ok (_, st1) => st1

/-- The state of an `Everything` instance (lines 174-188): the base-generator
    world plus `self._functions` (keyed by cache key), `self._constants`
    (values may be Python `None`, modelled by `Option α`), and
    `self._context`. -/
structure EvState (α : Type) where
  base : AnyState α
  functions : List (String × α)
  constants : List (String × Option α)
  context : List String

/-- The system prompt of `Everything` (lines 180-183). -/
def everything_system_prompt : String :=
  "Generate Python function implementation based on function name and argument types. Return only the function code without explanations."

/-- The constant prompt of `Everything` (lines 184-188). -/
def everything_constant_prompt : String :=
  "Generate a Python constant value based on the constant name. Return only the value assignment without explanations. Format: CONSTANT_NAME = value"

/-- `Everything._get_context_string` (lines 190-193). -/
def everything_get_context_string {α : Type} (st : EvState α) : String :=
  if st.context = [] then ""
  else "Previously generated context:\n" ++ joinSep "\n" st.context ++ "\n\n"

/-- `Everything._add_to_context` (lines 195-198): append a description,
    deduplicated by exact string match. -/
def everything_add_to_context {α : Type} (st : EvState α)
    (item_type name description : String) : EvState α :=
  let context_entry := item_type ++ ": " ++ name ++ " - " ++ description
  if context_entry ∈ st.context then st
  else { st with context := st.context ++ [context_entry] }

/-- The f-string `f"args: {arg_types}, kwargs: {kwarg_types}"` used for
    context entries of generated functions (lines 208 and 223). -/
def everything_shape_desc (args : List PyVal) (kwargs : List (String × PyVal)) : String :=
  "args: " ++ pyReprStrList (args.map PyVal.pyTypeName) ++
    ", kwargs: " ++ pyReprStrDict (kwargs.map fun p => (p.1, p.2.pyTypeName))

/-- The cache-miss tail of `Everything._generate_function` (lines 211-224):
    build the prompt, generate, execute, save, and record the context entry. -/
def everything_generate_function_miss {α : Type} (E : PyExt α) (st : EvState α)
    (func_name : String) (args : List PyVal) (kwargs : List (String × PyVal))
    (cache_path : String) :
    Except (EvState α) (α × EvState α) :=
  let arg_types := args.map PyVal.pyTypeName
  let kwarg_types := kwargs.map fun p => (p.1, p.2.pyTypeName)
  let context_string := everything_get_context_string st
  let user_prompt := context_string ++ "Function name: " ++ func_name ++
      ", argument types: args: " ++ pyReprStrList arg_types
  let user_prompt := if kwarg_types = [] then user_prompt
      else user_prompt ++ ", kwargs: " ++ pyReprStrDict kwarg_types
  match _generate_code E st.base everything_system_prompt user_prompt with
  | .error b => .error { st with base := b }
  | .ok (code, b) =>
    match _execute_code E b code func_name with
    | .error b2 => .error { st with base := b2 }
    | .ok (func_impl, b2) =>
      let st1 : EvState α := { st with base := _save_to_cache b2 cache_path code }
      .ok (func_impl,
        everything_add_to_context st1 "Function" func_name (everything_shape_desc args kwargs))

/-- `Everything._generate_function` (lines 200-224): derive key and path, try
    the disk cache (a truthy hit is returned after recording context),
    otherwise generate. -/
def everything_generate_function {α : Type} (E : PyExt α) (st : EvState α)
    (func_name : String) (args : List PyVal) (kwargs : List (String × PyVal)) :
    Except (EvState α) (α × EvState α) :=
  let cache_key := _get_cache_key func_name args kwargs
  let cache_path := _get_cache_path E.hashHex st.base.cacheDir func_name cache_key
  match _load_from_cache E st.base cache_path func_name with
  | .error b => .error { st with base := b }
  | .ok (cached, b) =>
    let st1 : EvState α := { st with base := b }
    match cached with
    | some f =>
      if E.truthy f then
        .ok (f, everything_add_to_context st1 "Function" func_name
          (everything_shape_desc args kwargs))
      else everything_generate_function_miss E st1 func_name args kwargs cache_path
    | Option.none => everything_generate_function_miss E st1 func_name args kwargs cache_path

/-- Python `s.upper()` (ASCII). -/
def pyUpper (s : String) : String := ⟨s.data.map Char.toUpper⟩

/-- The lookup of line 235/247: `local_env.get(const_name,
    local_env.get(const_name.upper()))` — the declared name if its key is
    present, otherwise the upper-cased variant. -/
def constLookup {α : Type} (env : List (String × α)) (name : String) : Option α :=
  match env.lookup name with
  | some v => some v
  | Option.none => env.lookup (pyUpper name)

/-- `Everything._generate_constant` (lines 226-250): on a cache hit, execute
    the cached text in a fresh namespace and look the value up; on a miss,
    generate, save (before executing!), execute in a fresh namespace and look
    the value up.  The result may be Python `None`. -/
def everything_generate_constant {α : Type} (E : PyExt α) (st : EvState α)
    (const_name : String) :
    Except (EvState α) (Option α × EvState α) :=
  let cache_key := "const_" ++ const_name
  let cache_path := _get_cache_path E.hashHex st.base.cacheDir const_name cache_key
  match st.base.cache.lookup cache_path with
  | some code =>
    match E.execO code [] with
    | .error _ => .error st
    | .ok local_env =>
      let value := constLookup local_env const_name
      .ok (value,
        everything_add_to_context st "Constant" const_name ("value: " ++ E.pyStr value))
  | Option.none =>
    let context_string := everything_get_context_string st
    let user_prompt := context_string ++ "Constant name: " ++ const_name
    match _generate_code E st.base everything_constant_prompt user_prompt with
    | .error b => .error { st with base := b }
    | .ok (code, b) =>
      let st1 : EvState α := { st with base := _save_to_cache b cache_path code }
      match E.execO code [] with
      | .error _ => .error st1
      | .ok local_env =>
        let value := constLookup local_env const_name
        .ok (value,
          everything_add_to_context st1 "Constant" const_name ("value: " ++ E.pyStr value))

/-- The wrapper returned by `Everything.__getattr__` (lines 252-261): compute
    the shape key, generate on first use of the shape, then call the callable
    stored under the key. -/
def everything_call {α : Type} (E : PyExt α) (st : EvState α) (func_name : String)
    (args : List PyVal) (kwargs : List (String × PyVal)) :
    Except (EvState α) (α × EvState α) :=
  let cache_key := _get_cache_key func_name args kwargs
  match st.functions.lookup cache_key with
  | some f =>
    match E.applyF f args kwargs with
    | some r => .ok (r, st)
    | Option.none => .error st
  | Option.none =>
    match everything_generate_function E st func_name args kwargs with
    | .error st1 => .error st1
    | .ok (f, st1) =>
      let st2 : EvState α := { st1 with functions := dictInsert st1.functions cache_key f }
      match E.applyF f args kwargs with
      | some r => .ok (r, st2)
      | Option.none => .error st2

/-- `Everything.__getitem__` (lines 263-266): generate a constant on first
    access, then serve the stored value. -/
def everything_getitem {α : Type} (E : PyExt α) (st : EvState α) (const_name : String) :
    Except (EvState α) (Option α × EvState α) :=
  match st.constants.lookup const_name with
  | some v => .ok (v, st)
  | Option.none =>
    match everything_generate_constant E st const_name with
    | .error st1 => .error st1
    | .ok (v, st1) =>
      .ok (v, { st1 with constants := dictInsert st1.constants const_name v })

/-- `Everything.get_context` (lines 268-269). -/
def get_context {α : Type} (st : EvState α) : List String := st.context

/-- `Everything.clear_context` (lines 271-272). -/
def clear_context {α : Type} (st : EvState α) : EvState α := { st with context := [] }

/-- A concrete external world over `Unit` values for evaluating the state
    machines: the endpoint always fails, `exec` leaves the namespace
    unchanged, every value is truthy, calls return nothing. -/
def extFail : PyExt Unit :=
  ⟨fun _ _ => Option.none, fun _ e => .ok e, fun _ => true, fun _ _ _ => Option.none,
   fun s => s, fun _ => ""⟩

/-- A concrete external world over `Unit` values with a successful endpoint
    and call oracle. -/
def extPure : PyExt Unit :=
  ⟨fun _ _ => some "x = 1", fun _ e => .ok e, fun _ => true, fun _ _ _ => some (),
   fun s => s, fun _ => "None"⟩

/-- An `Everything` state with one cached function shape and one cached
    constant. -/
def stCached : EvState Unit :=
  ⟨⟨".everything", [], [], 0⟩,
   [(_get_cache_key "f" [PyVal.int 1] [], ())],
   [("c", some ())], []⟩

/-- A concrete external world whose `exec` produces only the upper-cased
    binding `PI`. -/
def extConst : PyExt Unit :=
  ⟨fun _ _ => some "PI = 3", fun _ _ => .ok [("PI", ())], fun _ => true,
   fun _ _ _ => some (), fun s => s, fun _ => "3"⟩

/-- An `Everything` state whose disk cache holds a source file for the
    constant `pi`. -/
def stConst : EvState Unit :=
  ⟨⟨".everything", [(".everything/pi_const_pi.py", "PI = 3")], [], 0⟩, [], [], []⟩

/-! ### Constructor keyword binding and the cache_dir configuration input -/

/-- Python keyword binding of `BaseGenerator.__init__(self, api_key=None,
    cache_dir=Path(".") / ".anything", env=None, model="gpt-4.1-nano")`
    (lines 39-50) under a `**kwargs` call, restricted to the parameter the
    claim is about: an unexpected keyword raises `TypeError`, otherwise
    `cache_dir` is bound from the keywords or defaulted, and stored as
    `self.cache_dir`. -/
def base_init_cache_dir (kwargs : List (String × String)) : Except String String :=
  if kwargs.any (fun p => !(["api_key", "cache_dir", "env", "model"].contains p.1)) then
    .error "TypeError: unexpected keyword argument"
  else
    match kwargs.lookup "cache_dir" with
    | some v => .ok v
    | Option.none => .ok ".anything"

/-- `Anything.__init__(**kwargs)` forwards every keyword unchanged to the base
    constructor (lines 94-95). -/
def anything_init_cache_dir (kwargs : List (String × String)) : Except String String :=
  base_init_cache_dir kwargs

/-- `LazyAnything.__init__` builds `Anything(**kwargs)` (lines 125-126). -/
def lazy_init_cache_dir (kwargs : List (String × String)) : Except String String :=
  anything_init_cache_dir kwargs

/-- `Everything.__init__(**kwargs)` (lines 175-176) calls
    `super().__init__(cache_dir=kwargs.get("cache_dir", Path(".") /
    ".everything"), **kwargs)`: when `cache_dir` is among the keywords Python
    raises `TypeError`, because the keyword is then passed twice; otherwise
    the explicit default is prepended and the base constructor is called. -/
def everything_init_cache_dir (kwargs : List (String × String)) : Except String String :=
  let explicit := match kwargs.lookup "cache_dir" with
    | some v => v
    | Option.none => ".everything"
  if (kwargs.lookup "cache_dir").isSome then
    .error "TypeError: got multiple values for keyword argument cache_dir"
  else
    base_init_cache_dir (("cache_dir", explicit) :: kwargs)

theorem joinQ_cons (x : List Char) (xs : List (List Char)) :
    joinQ (x :: xs) = quotedChars x ++ tailQ xs := by
  cases xs <;> simp [joinQ, tailQ]

theorem joinD_cons (p : List Char × List Char) (ps : List (List Char × List Char)) :
    joinD (p :: ps) = entryQ p ++ tailD ps := by
  cases ps <;> simp [joinD, tailD]

theorem quotedChars_append (x t : List Char) :
    quotedChars x ++ t = '\x27' :: (x ++ '\x27' :: t) := by
  simp [quotedChars]

theorem entryQ_append (p : List Char × List Char) (t : List Char) :
    entryQ p ++ t =
      '\x27' :: (p.1 ++ '\x27' :: ':' :: ' ' :: '\x27' :: (p.2 ++ '\x27' :: t)) := by
  simp [entryQ, quotedChars]

theorem not_mem_cons_split {q a : Char} {l : List Char} (h : q ∉ a :: l) : q ≠ a ∧ q ∉ l :=
  ⟨fun hq => h (hq ▸ List.mem_cons_self a l), fun hq => h (List.mem_cons_of_mem a hq)⟩

/-- Splitting at an occurrence of a character absent from both prefixes is
    unambiguous. -/
theorem append_delim_inj (q : Char) (x : List Char) : ∀ (y r s : List Char), q ∉ x → q ∉ y →
    x ++ q :: r = y ++ q :: s → x = y ∧ r = s := by
  induction x with
  | nil =>
    intro y r s _ hy h
    cases y with
    | nil => simpa using h
    | cons b ys =>
      exfalso
      simp only [List.nil_append, List.cons_append, List.cons.injEq] at h
      exact (not_mem_cons_split hy).1 h.1
  | cons a xs ih =>
    intro y r s hx hy h
    cases y with
    | nil =>
      exfalso
      simp only [List.nil_append, List.cons_append, List.cons.injEq] at h
      exact (not_mem_cons_split hx).1 h.1.symm
    | cons b ys =>
      simp only [List.cons_append, List.cons.injEq] at h
      obtain ⟨rfl, h⟩ := h
      obtain ⟨rfl, rfl⟩ := ih ys r s (not_mem_cons_split hx).2 (not_mem_cons_split hy).2 h
      exact ⟨rfl, rfl⟩

theorem joinQ_inj (l₁ : List (List Char)) : ∀ l₂ : List (List Char),
    (∀ x ∈ l₁, ('\x27' : Char) ∉ x) → (∀ x ∈ l₂, ('\x27' : Char) ∉ x) →
    joinQ l₁ = joinQ l₂ → l₁ = l₂ := by
  induction l₁ with
  | nil =>
    intro l₂ _ _ h
    cases l₂ with
    | nil => rfl
    | cons y ys => rw [joinQ_cons, quotedChars_append] at h; cases h
  | cons x xs ih =>
    intro l₂ h₁ h₂ h
    cases l₂ with
    | nil => rw [joinQ_cons, quotedChars_append] at h; cases h
    | cons y ys =>
      rw [joinQ_cons, quotedChars_append, joinQ_cons, quotedChars_append] at h
      have h' := List.cons.inj h
      obtain ⟨rfl, htail⟩ := append_delim_inj '\x27' x y _ _
        (h₁ x (List.mem_cons_self x xs)) (h₂ y (List.mem_cons_self y ys)) h'.2
      cases xs with
      | nil =>
        cases ys with
        | nil => rfl
        | cons y' ys' => cases htail
      | cons x' xs' =>
        cases ys with
        | nil => cases htail
        | cons y' ys' =>
          simp only [tailQ, List.cons.injEq] at htail
          have := ih (y' :: ys')
            (fun a ha => h₁ a (List.mem_cons_of_mem x ha))
            (fun a ha => h₂ a (List.mem_cons_of_mem x ha)) htail.2.2
          rw [this]

theorem joinD_inj (l₁ : List (List Char × List Char)) : ∀ l₂ : List (List Char × List Char),
    (∀ p ∈ l₁, ('\x27' : Char) ∉ p.1 ∧ ('\x27' : Char) ∉ p.2) →
    (∀ p ∈ l₂, ('\x27' : Char) ∉ p.1 ∧ ('\x27' : Char) ∉ p.2) →
    joinD l₁ = joinD l₂ → l₁ = l₂ := by
  induction l₁ with
  | nil =>
    intro l₂ _ _ h
    cases l₂ with
    | nil => rfl
    | cons y ys => rw [joinD_cons, entryQ_append] at h; cases h
  | cons x xs ih =>
    intro l₂ h₁ h₂ h
    cases l₂ with
    | nil => rw [joinD_cons, entryQ_append] at h; cases h
    | cons y ys =>
      rw [joinD_cons, entryQ_append, joinD_cons, entryQ_append] at h
      have h' := List.cons.inj h
      obtain ⟨hk, hrest⟩ := append_delim_inj '\x27' x.1 y.1 _ _
        (h₁ x (List.mem_cons_self x xs)).1 (h₂ y (List.mem_cons_self y ys)).1 h'.2
      simp only [List.cons.injEq] at hrest
      obtain ⟨hv, htail⟩ := append_delim_inj '\x27' x.2 y.2 _ _
        (h₁ x (List.mem_cons_self x xs)).2 (h₂ y (List.mem_cons_self y ys)).2 hrest.2.2.2
      have hxy : x = y := Prod.ext hk hv
      subst hxy
      cases xs with
      | nil =>
        cases ys with
        | nil => rfl
        | cons y' ys' => cases htail
      | cons x' xs' =>
        cases ys with
        | nil => cases htail
        | cons y' ys' =>
          simp only [tailD, List.cons.injEq] at htail
          have := ih (y' :: ys')
            (fun a ha => h₁ a (List.mem_cons_of_mem x ha))
            (fun a ha => h₂ a (List.mem_cons_of_mem x ha)) htail.2.2
          rw [this]

theorem data_foldl_append (l : List String) : ∀ a : String,
    (l.foldl (· ++ ·) a).data = a.data ++ (l.map String.data).flatten := by
  induction l with
  | nil => intro a; simp
  | cons x xs ih =>
    intro a
    simp [List.foldl_cons, ih, String.data_append, List.append_assoc]

theorem data_join (l : List String) :
    (String.join l).data = (l.map String.data).flatten := by
  simpa [String.join] using data_foldl_append l ""

theorem flatten_map_singleton (l : List Char) : (l.map (fun c => [c])).flatten = l := by
  induction l with
  | nil => rfl
  | cons a l ih => simp [ih]

theorem pyEscChar_simple {c : Char} (h : simpleChar c = true) :
    pyEscChar '\x27' c = String.singleton c := by
  have h1 : c ≠ '\\' := fun hc => absurd (hc ▸ h) (by decide)
  have h2 : c ≠ '\x27' := fun hc => absurd (hc ▸ h) (by decide)
  have h3 : c ≠ '\n' := fun hc => absurd (hc ▸ h) (by decide)
  have h4 : c ≠ '\x0d' := fun hc => absurd (hc ▸ h) (by decide)
  have h5 : c ≠ '\t' := fun hc => absurd (hc ▸ h) (by decide)
  simp [pyEscChar, h1, h2, h3, h4, h5]

theorem pyReprStr_data_of_simple {s : String} (h : simpleName s = true) :
    (pyReprStr s).data = quotedChars s.data := by
  have hq : pyContainsChar s '\x27' = false := by
    have hm : ('\x27' : Char) ∉ s.data := fun hm =>
      absurd (List.all_eq_true.mp h _ hm) (by decide)
    simpa [pyContainsChar] using hm
  have hesc : s.data.map (pyEscChar '\x27') = s.data.map String.singleton :=
    List.map_congr_left fun c hc => pyEscChar_simple (List.all_eq_true.mp h c hc)
  simp only [pyReprStr, hq, Bool.false_and, Bool.false_eq_true, if_false,
    String.data_append, data_join, hesc, List.map_map]
  have : (String.data ∘ String.singleton) = fun c : Char => [c] := rfl
  simp [this, flatten_map_singleton, quotedChars]

theorem joinSepQ_data_of_simple (l : List String) :
    (∀ s ∈ l, simpleName s = true) →
    (joinSep ", " (l.map pyReprStr)).data = joinQ (l.map String.data) := by
  induction l with
  | nil => intro _; rfl
  | cons x xs ih =>
    intro h
    cases xs with
    | nil =>
      simpa [joinSep, joinQ] using pyReprStr_data_of_simple (h x (by simp))
    | cons y ys =>
      have hx := pyReprStr_data_of_simple (h x (by simp))
      have htail := ih (fun s hs => h s (List.mem_cons_of_mem x hs))
      show (pyReprStr x ++ ", " ++ joinSep ", " ((y :: ys).map pyReprStr)).data
          = joinQ (x.data :: (y :: ys).map String.data)
      rw [joinQ_cons]
      have hsep : (", " : String).data = [',', ' '] := rfl
      rw [String.data_append, String.data_append, hx, htail, hsep]
      simp [tailQ, List.append_assoc]

theorem joinSepD_data_of_simple (d : List (String × String)) :
    (∀ p ∈ d, simpleName p.1 = true ∧ simpleName p.2 = true) →
    (joinSep ", " (d.map fun p => pyReprStr p.1 ++ ": " ++ pyReprStr p.2)).data
      = joinD (d.map fun p => (p.1.data, p.2.data)) := by
  induction d with
  | nil => intro _; rfl
  | cons x xs ih =>
    intro h
    have hx1 := pyReprStr_data_of_simple (h x (by simp)).1
    have hx2 := pyReprStr_data_of_simple (h x (by simp)).2
    cases xs with
    | nil =>
      simp [joinSep, joinD, entryQ, String.data_append, hx1, hx2]
    | cons y ys =>
      have htail := ih (fun p hp => h p (List.mem_cons_of_mem x hp))
      show ((pyReprStr x.1 ++ ": " ++ pyReprStr x.2) ++ ", " ++
            joinSep ", " ((y :: ys).map fun p => pyReprStr p.1 ++ ": " ++ pyReprStr p.2)).data
          = joinD ((x.1.data, x.2.data) :: (y :: ys).map fun p => (p.1.data, p.2.data))
      rw [joinD_cons]
      have hsep : (", " : String).data = [',', ' '] := rfl
      have hcolon : (": " : String).data = [':', ' '] := rfl
      simp only [String.data_append, hx1, hx2, hsep, hcolon, tailD, htail, entryQ]
      simp [List.append_assoc]

theorem mem_joinQ {c : Char} : ∀ {l : List (List Char)}, c ∈ joinQ l →
    c = '\x27' ∨ c = ',' ∨ c = ' ' ∨ ∃ x ∈ l, c ∈ x := by
  intro l
  induction l with
  | nil => intro h; cases h
  | cons x xs ih =>
    intro h
    rw [joinQ_cons] at h
    rcases List.mem_append.mp h with h | h
    · rw [quotedChars] at h
      rcases List.mem_cons.mp h with h | h
      · exact Or.inl h
      rcases List.mem_append.mp h with h | h
      · exact Or.inr (Or.inr (Or.inr ⟨x, List.mem_cons_self x xs, h⟩))
      · rcases List.mem_cons.mp h with h | h
        · exact Or.inl h
        · cases h
    · cases xs with
      | nil => simp [tailQ] at h
      | cons y ys =>
        rw [tailQ] at h
        rcases List.mem_cons.mp h with h | h
        · exact Or.inr (Or.inl h)
        rcases List.mem_cons.mp h with h | h
        · exact Or.inr (Or.inr (Or.inl h))
        · rcases ih h with h | h | h | ⟨z, hz, hc⟩
          · exact Or.inl h
          · exact Or.inr (Or.inl h)
          · exact Or.inr (Or.inr (Or.inl h))
          · exact Or.inr (Or.inr (Or.inr ⟨z, List.mem_cons_of_mem x hz, hc⟩))

theorem list_chars_simple {l : List PyVal} (h : ∀ a ∈ l, simpleName a.pyTypeName = true) :
    ∀ x ∈ (l.map PyVal.pyTypeName).map String.data, ∀ c ∈ x, simpleChar c = true := by
  intro x hx c hc
  obtain ⟨s, hs, rfl⟩ := List.mem_map.mp hx
  obtain ⟨a, ha, rfl⟩ := List.mem_map.mp hs
  exact List.all_eq_true.mp (h a ha) c hc

theorem list_quote_free {l : List PyVal} (h : ∀ a ∈ l, simpleName a.pyTypeName = true) :
    ∀ x ∈ (l.map PyVal.pyTypeName).map String.data, ('\x27' : Char) ∉ x :=
  fun x hx hm => absurd (list_chars_simple h x hx _ hm) (by decide)

theorem dict_quote_free {k : List (String × PyVal)}
    (h : ∀ p ∈ k, simpleName p.1 = true ∧ simpleName p.2.pyTypeName = true) :
    ∀ p ∈ (k.map fun p => (p.1, p.2.pyTypeName)).map (fun p => (p.1.data, p.2.data)),
      ('\x27' : Char) ∉ p.1 ∧ ('\x27' : Char) ∉ p.2 := by
  intro p hp
  obtain ⟨q, hq, rfl⟩ := List.mem_map.mp hp
  obtain ⟨r, hr, rfl⟩ := List.mem_map.mp hq
  exact ⟨fun hm => absurd (List.all_eq_true.mp (h r hr).1 _ hm) (by decide),
         fun hm => absurd (List.all_eq_true.mp (h r hr).2 _ hm) (by decide)⟩

theorem brace_not_mem_listFrag {A : List (List Char)}
    (hA : ∀ x ∈ A, ∀ c ∈ x, simpleChar c = true) :
    ('\x7b' : Char) ∉ '[' :: (joinQ A ++ [']', '_']) := by
  intro hm
  rcases List.mem_cons.mp hm with h | h
  · exact absurd h (by decide)
  rcases List.mem_append.mp h with h | h
  · rcases mem_joinQ h with h | h | h | ⟨x, hx, hc⟩
    · exact absurd h (by decide)
    · exact absurd h (by decide)
    · exact absurd h (by decide)
    · exact absurd (hA x hx _ hc) (by decide)
  · rcases List.mem_cons.mp h with h | h
    · exact absurd h (by decide)
    rcases List.mem_cons.mp h with h | h
    · exact absurd h (by decide)
    · cases h

/-- The characters of the cache key, decomposed: the function name, an
    underscore, the list repr, an underscore, the dict repr. -/
theorem _get_cache_key_data (f : String) (args : List PyVal) (kwargs : List (String × PyVal))
    (ha : ∀ a ∈ args, simpleName a.pyTypeName = true)
    (hk : ∀ p ∈ kwargs, simpleName p.1 = true ∧ simpleName p.2.pyTypeName = true) :
    (_get_cache_key f args kwargs).data =
      f.data ++ '_' ::
        (('[' :: (joinQ ((args.map PyVal.pyTypeName).map String.data) ++ [']', '_'])) ++
          '\x7b' :: (joinD ((kwargs.map fun p => (p.1, p.2.pyTypeName)).map
              fun p => (p.1.data, p.2.data)) ++ ['\x7d'])) := by
  have hQ := joinSepQ_data_of_simple (args.map PyVal.pyTypeName)
    (fun s hs => by obtain ⟨a, haa, rfl⟩ := List.mem_map.mp hs; exact ha a haa)
  have hD := joinSepD_data_of_simple (kwargs.map fun p => (p.1, p.2.pyTypeName))
    (fun p hp => by obtain ⟨q, hq, rfl⟩ := List.mem_map.mp hp; exact hk q hq)
  have hop : ("[" : String).data = ['['] := rfl
  have hcl : ("]" : String).data = [']'] := rfl
  have hus : ("_" : String).data = ['_'] := rfl
  have hob : ("\x7b" : String).data = ['\x7b'] := rfl
  have hcb : ("\x7d" : String).data = ['\x7d'] := rfl
  simp only [_get_cache_key, pyReprStrList, pyReprStrDict, String.data_append,
    hQ, hD, hop, hcl, hus, hob, hcb]
  simp [List.append_assoc]

/-- An injective hash sends distinct keys to distinct cache paths; conversely
    equal paths under an injective hash force equal keys. -/
theorem _get_cache_path_inj (hashHex : String → String) (cacheDir id_ : String)
    (hinj : Function.Injective hashHex) {k₁ k₂ : String}
    (h : _get_cache_path hashHex cacheDir id_ k₁ = _get_cache_path hashHex cacheDir id_ k₂) :
    k₁ = k₂ := by
  unfold _get_cache_path at h
  have hd := congrArg String.data h
  simp only [String.data_append, List.append_assoc] at hd
  have h1 := List.append_right_injective cacheDir.data hd
  have h2 := List.append_right_injective ("/" : String).data h1
  have h3 := List.append_right_injective id_.data h2
  have h4 := List.append_right_injective ("_" : String).data h3
  have h5 := List.append_left_injective (".py" : String).data h4
  exact hinj (String.ext h5)

/-- The rendered cache key determines both argument-type shapes, provided all
    class and keyword names are identifier-like. -/
theorem cache_key_determines_shape (f : String)
    (a₁ a₂ : List PyVal) (k₁ k₂ : List (String × PyVal))
    (ha₁ : ∀ a ∈ a₁, simpleName a.pyTypeName = true)
    (hk₁ : ∀ p ∈ k₁, simpleName p.1 = true ∧ simpleName p.2.pyTypeName = true)
    (ha₂ : ∀ a ∈ a₂, simpleName a.pyTypeName = true)
    (hk₂ : ∀ p ∈ k₂, simpleName p.1 = true ∧ simpleName p.2.pyTypeName = true)
    (h : _get_cache_key f a₁ k₁ = _get_cache_key f a₂ k₂) :
    a₁.map PyVal.pyTypeName = a₂.map PyVal.pyTypeName ∧
      k₁.map (fun p => (p.1, p.2.pyTypeName)) = k₂.map (fun p => (p.1, p.2.pyTypeName)) := by
  have hd := congrArg String.data h
  rw [_get_cache_key_data f a₁ k₁ ha₁ hk₁, _get_cache_key_data f a₂ k₂ ha₂ hk₂] at hd
  have hd2 := List.append_right_injective f.data hd
  have hd3 := (List.cons.inj hd2).2
  obtain ⟨hP, hR⟩ := append_delim_inj '\x7b' _ _ _ _
    (brace_not_mem_listFrag (list_chars_simple ha₁))
    (brace_not_mem_listFrag (list_chars_simple ha₂)) hd3
  constructor
  · have hP2 := (List.cons.inj hP).2
    have hjq := List.append_left_injective ([']', '_'] : List Char) hP2
    have hA := joinQ_inj _ _ (list_quote_free ha₁) (list_quote_free ha₂) hjq
    have hsinj : Function.Injective String.data := fun _ _ hst => String.ext hst
    exact List.map_injective_iff.mpr hsinj hA
  · have hjd := List.append_left_injective (['\x7d'] : List Char) hR
    have hK := joinD_inj _ _ (dict_quote_free hk₁) (dict_quote_free hk₂) hjd
    have hpinj : Function.Injective (fun p : String × String => (p.1.data, p.2.data)) := by
      intro p q hpq
      simp only [Prod.mk.injEq] at hpq
      exact Prod.ext (String.ext hpq.1) (String.ext hpq.2)
    exact List.map_injective_iff.mpr hpinj hK

/-- Claim C1: two calls of the key deriver with the same function name whose
    argument shapes differ in at least one positional or keyword argument type
    produce different cache keys, and (for an injective hash) different cache
    paths. -/
theorem cache_key_type_sensitive (hashHex : String → String) (cacheDir f : String)
    (a₁ a₂ : List PyVal) (k₁ k₂ : List (String × PyVal))
    (ha₁ : ∀ a ∈ a₁, simpleName a.pyTypeName = true)
    (hk₁ : ∀ p ∈ k₁, simpleName p.1 = true ∧ simpleName p.2.pyTypeName = true)
    (ha₂ : ∀ a ∈ a₂, simpleName a.pyTypeName = true)
    (hk₂ : ∀ p ∈ k₂, simpleName p.1 = true ∧ simpleName p.2.pyTypeName = true)
    (hne : a₁.map PyVal.pyTypeName ≠ a₂.map PyVal.pyTypeName ∨
      k₁.map (fun p => (p.1, p.2.pyTypeName)) ≠ k₂.map (fun p => (p.1, p.2.pyTypeName))) :
    _get_cache_key f a₁ k₁ ≠ _get_cache_key f a₂ k₂ ∧
      (Function.Injective hashHex →
        _get_cache_path hashHex cacheDir f (_get_cache_key f a₁ k₁) ≠
          _get_cache_path hashHex cacheDir f (_get_cache_key f a₂ k₂)) := by
  have hkey : _get_cache_key f a₁ k₁ ≠ _get_cache_key f a₂ k₂ := by
    intro he
    rcases hne with hne | hne
    · exact hne (cache_key_determines_shape f a₁ a₂ k₁ k₂ ha₁ hk₁ ha₂ hk₂ he).1
    · exact hne (cache_key_determines_shape f a₁ a₂ k₁ k₂ ha₁ hk₁ ha₂ hk₂ he).2
  exact ⟨hkey, fun hinj hp => hkey (_get_cache_path_inj hashHex cacheDir f hinj hp)⟩

/-- Witness for C1 at a concrete input: `f(1)` versus `f("a")`. -/
theorem cache_key_type_sensitive_witness :
    _get_cache_key "f" [PyVal.int 1] [] ≠ _get_cache_key "f" [PyVal.str "a"] [] ∧
      (Function.Injective (fun s : String => s) →
        _get_cache_path (fun s => s) ".anything" "f" (_get_cache_key "f" [PyVal.int 1] []) ≠
          _get_cache_path (fun s => s) ".anything" "f" (_get_cache_key "f" [PyVal.str "a"] [])) :=
  cache_key_type_sensitive (fun s => s) ".anything" "f" [PyVal.int 1] [PyVal.str "a"] [] []
    (by decide) (by decide) (by decide) (by decide) (Or.inl (by decide))

/-- Claim C2: the cache key depends only on the argument-type shape, not on
    argument values, and hence so does the cache path. -/
theorem cache_key_value_insensitive (hashHex : String → String) (cacheDir f : String)
    (a₁ a₂ : List PyVal) (k₁ k₂ : List (String × PyVal))
    (ha : a₁.map PyVal.pyTypeName = a₂.map PyVal.pyTypeName)
    (hk : k₁.map (fun p => (p.1, p.2.pyTypeName)) = k₂.map (fun p => (p.1, p.2.pyTypeName))) :
    _get_cache_key f a₁ k₁ = _get_cache_key f a₂ k₂ ∧
      _get_cache_path hashHex cacheDir f (_get_cache_key f a₁ k₁) =
        _get_cache_path hashHex cacheDir f (_get_cache_key f a₂ k₂) := by
  have hkey : _get_cache_key f a₁ k₁ = _get_cache_key f a₂ k₂ := by
    simp only [_get_cache_key, ha, hk]
  exact ⟨hkey, by rw [hkey]⟩

/-- Witness for C2 at a concrete input: `f(1, k=2)` versus `f(100, k=-5)`. -/
theorem cache_key_value_insensitive_witness :
    _get_cache_key "f" [PyVal.int 1] [("k", PyVal.int 2)] =
        _get_cache_key "f" [PyVal.int 100] [("k", PyVal.int (-5))] ∧
      _get_cache_path (fun s => s) ".anything" "f"
          (_get_cache_key "f" [PyVal.int 1] [("k", PyVal.int 2)]) =
        _get_cache_path (fun s => s) ".anything" "f"
          (_get_cache_key "f" [PyVal.int 100] [("k", PyVal.int (-5))]) :=
  cache_key_value_insensitive (fun s => s) ".anything" "f"
    [PyVal.int 1] [PyVal.int 100] [("k", PyVal.int 2)] [("k", PyVal.int (-5))]
    (by decide) (by decide)

/-! ### Code-fence stripping (`_clean_code`) -/

theorem pyStartsWith_append_self (p rest : String) :
    pyStartsWith (p ++ rest) p = true := by
  rw [pyStartsWith, String.data_append, List.isPrefixOf_iff_prefix]
  exact List.prefix_append p.data rest.data

theorem pySliceDrop_wrap (p body q : String) (a : Nat)
    (hp : p.data.length = a) (hq : q.data.length = 3) :
    pySliceDrop (p ++ body ++ q) a 3 = body := by
  apply String.ext
  show ((p ++ body ++ q).data.take ((p ++ body ++ q).data.length - 3)).drop a = body.data
  rw [String.data_append, String.data_append]
  rw [List.take_left' (by simp [List.length_append, hq]; omega)]
  exact List.drop_left' hp

theorem not_startsWith_python_fence {body : String} (h : pyStartsWith body "```" = false) :
    pyStartsWith body "```python" = false := by
  cases hb : pyStartsWith body "```python"
  · rfl
  exfalso
  rw [pyStartsWith] at hb
  have hpre := List.isPrefixOf_iff_prefix.mp hb
  have h3 : ("```" : String).data.isPrefixOf ("```python" : String).data = true := rfl
  have := List.isPrefixOf_iff_prefix.mpr ((List.isPrefixOf_iff_prefix.mp h3).trans hpre)
  rw [pyStartsWith, this] at h
  cases h

theorem bare_fence_not_python {body : String}
    (hnp : pyStartsWith body "python" = false) :
    pyStartsWith ("```" ++ body ++ "```") "```python" = false := by
  cases hb : pyStartsWith ("```" ++ body ++ "```") "```python"
  · rfl
  exfalso
  rw [pyStartsWith] at hb
  have hpre := List.isPrefixOf_iff_prefix.mp hb
  have hsplit : ("```python" : String).data
      = ("```" : String).data ++ ("python" : String).data := rfl
  have hdata : ("```" ++ body ++ "```" : String).data
      = ("```" : String).data ++ (body.data ++ ("```" : String).data) := by
    simp [String.data_append]
  rw [hdata, hsplit, List.prefix_append_right_inj] at hpre
  have h6 : ("python" : String).data.length = 6 := rfl
  rcases Nat.lt_or_ge body.data.length 6 with hlen | hlen
  · obtain ⟨t, ht⟩ := hpre
    have hidx : (body.data ++ ("```" : String).data)[body.data.length]? = some '\x60' := by
      rw [List.getElem?_append_right (le_refl _)]
      simp
    rw [← ht] at hidx
    rw [List.getElem?_append, if_pos (by omega : body.data.length < ("python" : String).data.length)]
      at hidx
    have hmem : '\x60' ∈ ("python" : String).data := by
      have := List.getElem?_mem hidx
      exact this
    exact absurd hmem (by decide)
  · have htake := List.prefix_iff_eq_take.mp hpre
    rw [h6, List.take_append_of_le_length hlen] at htake
    have hpb : ("python" : String).data <+: body.data := htake ▸ List.take_prefix 6 body.data
    rw [pyStartsWith, List.isPrefixOf_iff_prefix.mpr hpb] at hnp
    cases hnp

/-- Claim C3 is refuted as stated: a fence tagged with a language other than
    `python` (here ```py) keeps the tag text in the cleaned output. -/
theorem clean_code_py_tag_counterexample :
    _clean_code ("```py\n" ++ "x = 1" ++ "\n```") ≠ _clean_code "x = 1" := by decide

/-- Claim C3 (amended): cleaning a body wrapped in a ```python-tagged fence,
    or in a bare untagged fence, equals cleaning the unfenced body — provided
    the body does not itself start with a fence, and (for the bare fence) does
    not start with the text `python`; a fence with any other language tag
    (such as ```py) is only stripped of its backticks, so the tag text remains
    in the output. -/
theorem clean_code_fence_insensitive (body : String)
    (hnf : pyStartsWith body "```" = false)
    (hnp : pyStartsWith body "python" = false) :
    _clean_code ("```python" ++ body ++ "```") = _clean_code body ∧
      _clean_code ("```" ++ body ++ "```") = _clean_code body := by
  have hclean : _clean_code body = pyStrip body := by
    unfold _clean_code
    rw [not_startsWith_python_fence hnf, hnf]
    simp
  constructor
  · rw [hclean]
    unfold _clean_code
    rw [if_pos]
    · rw [pySliceDrop_wrap "```python" body "```" 9 rfl rfl]
    · rw [String.append_assoc]
      exact pyStartsWith_append_self "```python" (body ++ "```")
  · rw [hclean]
    unfold _clean_code
    rw [bare_fence_not_python hnp]
    simp only [Bool.false_eq_true, if_false]
    rw [if_pos]
    · rw [pySliceDrop_wrap "```" body "```" 3 rfl rfl]
    · rw [String.append_assoc]
      exact pyStartsWith_append_self "```" (body ++ "```")

/-- Witness for the amended C3 at the concrete body `x = 1`. -/
theorem clean_code_fence_insensitive_witness :
    _clean_code ("```python" ++ "x = 1" ++ "```") = _clean_code "x = 1" ∧
      _clean_code ("```" ++ "x = 1" ++ "```") = _clean_code "x = 1" :=
  clean_code_fence_insensitive "x = 1" (by decide) (by decide)

/-! ### Helper lemmas about dict lookup and insertion -/

theorem lookup_pair_cons {α : Type} (k : String) (p : String × α) (d : List (String × α)) :
    List.lookup k (p :: d) = if k = p.1 then some p.2 else List.lookup k d := by
  obtain ⟨x, b⟩ := p
  by_cases h : k = x
  · subst h; simp [List.lookup]
  · have hb : (k == x) = false := beq_eq_false_iff_ne.mpr h
    simp [List.lookup, hb, h]

theorem lookup_map_replace {α : Type} (d : List (String × α)) (k : String) (v : α)
    (h : (d.lookup k).isSome = true) :
    (d.map (fun p => if p.1 = k then (k, v) else p)).lookup k = some v := by
  induction d with
  | nil => simp [List.lookup] at h
  | cons p d ih =>
    rw [lookup_pair_cons] at h
    by_cases hp : p.1 = k
    · simp only [List.map_cons, if_pos hp]
      rw [lookup_pair_cons]
      simp
    · rw [if_neg (fun hkp : k = p.1 => hp hkp.symm)] at h
      simp only [List.map_cons, if_neg hp]
      rw [lookup_pair_cons, if_neg (fun hkp : k = p.1 => hp hkp.symm)]
      exact ih h

theorem lookup_append_new {α : Type} (d : List (String × α)) (k : String) (v : α)
    (h : d.lookup k = Option.none) :
    (d ++ [(k, v)]).lookup k = some v := by
  induction d with
  | nil => simp [List.lookup]
  | cons p d ih =>
    rw [lookup_pair_cons] at h
    rw [List.cons_append, lookup_pair_cons]
    by_cases hk : k = p.1
    · rw [if_pos hk] at h; cases h
    · rw [if_neg hk] at h
      rw [if_neg hk]
      exact ih h

theorem dictInsert_lookup {α : Type} (d : List (String × α)) (k : String) (v : α) :
    (dictInsert d k v).lookup k = some v := by
  unfold dictInsert
  by_cases h : (d.lookup k).isSome
  · rw [if_pos h]
    exact lookup_map_replace d k v h
  · rw [if_neg h]
    cases hd : d.lookup k with
    | some w => rw [hd] at h; simp at h
    | none => exact lookup_append_new d k v hd

/-- The cache key depends only on the type shape of the arguments. -/
theorem _get_cache_key_shape_congr (f : String) {a₁ a₂ : List PyVal}
    {k₁ k₂ : List (String × PyVal)}
    (ha : a₁.map PyVal.pyTypeName = a₂.map PyVal.pyTypeName)
    (hk : k₁.map (fun p => (p.1, p.2.pyTypeName)) = k₂.map (fun p => (p.1, p.2.pyTypeName))) :
    _get_cache_key f a₁ k₁ = _get_cache_key f a₂ k₂ := by
  simp only [_get_cache_key, ha, hk]

/-! ### The deferred-mode state machine is terminal in Generated -/

theorem lazy_generate_all_of_generated {α : Type} (E : PyExt α) (st : LazyState α)
    (h : st.generated = true) : lazy_generate_all E st = .ok st := by
  unfold lazy_generate_all
  rw [h]
  simp

theorem lazy_trigger_step_state {α : Type} (E : PyExt α) (st : LazyState α)
    (h : st.generated = true) : lazy_step E st LazyOp.trigger = st := by
  simp [lazy_step, lazy_generate_all_of_generated E st h]

theorem lazy_wrapper_call_unregistered {α : Type} (E : PyExt α) (st : LazyState α)
    (h : st.generated = true) {n : String}
    (hn : st.registered.lookup n = Option.none) (a : List PyVal)
    (k : List (String × PyVal)) :
    lazy_wrapper_call E st n a k = .error st := by
  unfold lazy_wrapper_call
  simp only [h, if_true, hn]

theorem lazy_wrapper_call_found {α : Type} (E : PyExt α) (st : LazyState α)
    (h : st.generated = true) {n : String} {f : α}
    (hn : st.registered.lookup n = some f) (a : List PyVal)
    (k : List (String × PyVal)) :
    lazy_wrapper_call E st n a k =
      (match E.applyF f a k with
       | Option.none => Except.error st
       | some r => Except.ok (r, st)) := by
  unfold lazy_wrapper_call
  simp only [h, if_true, hn]

theorem lazy_wrapper_step_state {α : Type} (E : PyExt α) (st : LazyState α)
    (h : st.generated = true) (n : String) (a : List PyVal) (k : List (String × PyVal)) :
    lazy_step E st (LazyOp.call n a k) = st := by
  show (match lazy_wrapper_call E st n a k with
        | Except.error st1 => st1
        | Except.ok (_, st1) => st1) = st
  cases hl : st.registered.lookup n with
  | none => rw [lazy_wrapper_call_unregistered E st h hl a k]
  | some f =>
    rw [lazy_wrapper_call_found E st h hl a k]
    cases E.applyF f a k with
    | none => simp
    | some r => simp

theorem lazy_step_preserves {α : Type} (E : PyExt α) (st : LazyState α)
    (h : st.generated = true) (op : LazyOp) :
    (lazy_step E st op).generated = true ∧ (lazy_step E st op).registered = st.registered := by
  cases op with
  | register f => exact ⟨h, rfl⟩
  | trigger => rw [lazy_trigger_step_state E st h]; exact ⟨h, rfl⟩
  | call n a k => rw [lazy_wrapper_step_state E st h n a k]; exact ⟨h, rfl⟩

/-- Claim C4: the deferred-mode state machine is terminal in Generated: from a
    generated state, no sequence of caller operations (registrations, trigger
    calls, wrapper calls) changes the registered-functions map or resets the
    flag, so a name without a registered implementation at generation time is
    never served afterwards — its wrapper always raises instead of behaving as
    a registered function. -/
theorem lazy_generated_terminal {α : Type} (E : PyExt α) (st : LazyState α)
    (h : st.generated = true) (ops : List LazyOp) :
    (ops.foldl (lazy_step E) st).generated = true ∧
    (ops.foldl (lazy_step E) st).registered = st.registered ∧
    (∀ n a k r st1, st.registered.lookup n = Option.none →
      lazy_wrapper_call E (ops.foldl (lazy_step E) st) n a k ≠ .ok (r, st1)) := by
  induction ops generalizing st with
  | nil =>
    refine ⟨h, rfl, ?_⟩
    intro n a k r st1 hn hcall
    rw [List.foldl_nil, lazy_wrapper_call_unregistered E st h hn a k] at hcall
    cases hcall
  | cons op rest ih =>
    obtain ⟨hp1, hp2⟩ := lazy_step_preserves E st h op
    obtain ⟨i1, i2, i3⟩ := ih (lazy_step E st op) hp1
    rw [List.foldl_cons]
    refine ⟨i1, i2.trans hp2, ?_⟩
    intro n a k r st1 hn
    exact i3 n a k r st1 (by rw [hp2]; exact hn)

/-- Witness for C4: a generated empty instance; registering `g` and firing the
    trigger again leaves it generated, and calling `g` still fails. -/
theorem lazy_generated_terminal_witness :
    (([LazyOp.register (PyFunc.mk "g" "None" []), LazyOp.trigger].foldl
        (lazy_step extFail)
        (LazyState.mk (AnyState.mk ".anything" [] [] 0) [] [] true)).generated = true) ∧
    ∀ st1, lazy_wrapper_call extFail
        ([LazyOp.register (PyFunc.mk "g" "None" []), LazyOp.trigger].foldl
          (lazy_step extFail)
          (LazyState.mk (AnyState.mk ".anything" [] [] 0) [] [] true))
        "g" [] [] ≠ .ok ((), st1) := by
  refine ⟨(lazy_generated_terminal extFail _ rfl _).1, fun st1 => ?_⟩
  exact (lazy_generated_terminal extFail
    (LazyState.mk (AnyState.mk ".anything" [] [] 0) [] [] true) rfl
    [LazyOp.register (PyFunc.mk "g" "None" []), LazyOp.trigger]).2.2 "g" [] [] () st1 rfl

/-- Claim C5: once generation has fired, firing the trigger again —
    `generate_all`, `finalize`, `_generate_all` itself, or through a wrapper
    call — returns immediately: the state, including the registered map, the
    generated flag and the endpoint-call counter, is unchanged, so no further
    generation calls are performed. -/
theorem lazy_second_trigger_noop {α : Type} (E : PyExt α) (st : LazyState α)
    (h : st.generated = true) :
    lazy_generate_all E st = .ok st ∧
    lazy_generate_all_pub E st = .ok st ∧
    lazy_finalize E st = .ok st ∧
    (∀ n a k, lazy_step E st (LazyOp.call n a k) = st) ∧
    lazy_step E st LazyOp.trigger = st := by
  have hg := lazy_generate_all_of_generated E st h
  exact ⟨hg, hg, hg, fun n a k => lazy_wrapper_step_state E st h n a k,
    lazy_trigger_step_state E st h⟩

/-- Witness for C5 at a concrete generated instance. -/
theorem lazy_second_trigger_noop_witness :
    lazy_generate_all extFail (LazyState.mk (AnyState.mk ".anything" [] [] 0) [] [] true) =
      .ok (LazyState.mk (AnyState.mk ".anything" [] [] 0) [] [] true) ∧
    lazy_finalize extFail (LazyState.mk (AnyState.mk ".anything" [] [] 0) [] [] true) =
      .ok (LazyState.mk (AnyState.mk ".anything" [] [] 0) [] [] true) := by
  refine ⟨?_, ?_⟩
  · exact (lazy_second_trigger_noop extFail _ rfl).1
  · exact (lazy_second_trigger_noop extFail _ rfl).2.2.1

/-! ### Cached artifacts are reused without further endpoint calls -/

/-- Claim C9: clearing the context accumulator empties it, and a second
    consecutive clear is a no-op. -/
theorem clear_context_idempotent {α : Type} (st : EvState α) :
    (clear_context st).context = [] ∧
      clear_context (clear_context st) = clear_context st :=
  ⟨rfl, rfl⟩

/-- Claim C6: generated artifacts are reused.  A successful wrapper call
    leaves the shape key bound in `self._functions`; a later call whose
    arguments have the same type shape is served from that map — the stored
    callable is invoked and the state, in particular the endpoint-call counter
    and the disk cache, is unchanged.  A successful constant access leaves the
    value stored in `self._constants`; a second access returns the stored
    value with the state unchanged. -/
theorem generated_artifacts_reused {α : Type} (E : PyExt α) (st : EvState α)
    (func_name : String) (a₁ a₂ : List PyVal) (k₁ k₂ : List (String × PyVal))
    (const_name : String) :
    (∀ r st1, everything_call E st func_name a₁ k₁ = .ok (r, st1) →
      (st1.functions.lookup (_get_cache_key func_name a₁ k₁)).isSome = true) ∧
    (∀ f, st.functions.lookup (_get_cache_key func_name a₁ k₁) = some f →
      a₁.map PyVal.pyTypeName = a₂.map PyVal.pyTypeName →
      k₁.map (fun p => (p.1, p.2.pyTypeName)) = k₂.map (fun p => (p.1, p.2.pyTypeName)) →
      everything_call E st func_name a₂ k₂ =
        (match E.applyF f a₂ k₂ with
         | some r => Except.ok (r, st)
         | Option.none => Except.error st)) ∧
    (∀ v st1, everything_getitem E st const_name = .ok (v, st1) →
      st1.constants.lookup const_name = some v) ∧
    (∀ v, st.constants.lookup const_name = some v →
      everything_getitem E st const_name = .ok (v, st)) := by
  refine ⟨?_, ?_, ?_, ?_⟩
  · intro r st1 hcall
    simp only [everything_call] at hcall
    cases hl : st.functions.lookup (_get_cache_key func_name a₁ k₁) <;>
      simp only [hl] at hcall
    · cases hg : everything_generate_function E st func_name a₁ k₁ <;>
        simp only [hg] at hcall
      · cases hcall
      · rename_i p
        obtain ⟨f, stg⟩ := p
        cases ha : E.applyF f a₁ k₁ <;> simp only [ha] at hcall
        · cases hcall
        · simp only [Except.ok.injEq, Prod.mk.injEq] at hcall
          obtain ⟨-, h2⟩ := hcall
          rw [← h2]
          simp [dictInsert_lookup]
    · rename_i f
      cases ha : E.applyF f a₁ k₁ <;> simp only [ha] at hcall
      · cases hcall
      · simp only [Except.ok.injEq, Prod.mk.injEq] at hcall
        obtain ⟨-, h2⟩ := hcall
        rw [← h2, hl]
        rfl
  · intro f hf ha hk
    have hkey := _get_cache_key_shape_congr func_name ha hk
    simp only [everything_call]
    rw [← hkey, hf]
  · intro v st1 hcall
    simp only [everything_getitem] at hcall
    cases hl : st.constants.lookup const_name <;> simp only [hl] at hcall
    · cases hg : everything_generate_constant E st const_name <;>
        simp only [hg] at hcall
      · cases hcall
      · rename_i p
        obtain ⟨w, stg⟩ := p
        simp only [Except.ok.injEq, Prod.mk.injEq] at hcall
        obtain ⟨h1, h2⟩ := hcall
        rw [← h2, ← h1]
        simp [dictInsert_lookup]
    · simp only [Except.ok.injEq, Prod.mk.injEq] at hcall
      obtain ⟨h1, h2⟩ := hcall
      rw [← h2, hl, h1]
  · intro v hv
    simp only [everything_getitem]
    rw [hv]

/-- Witness for C6: `f(2)` after `f(1)` is served from the function map with
    the state unchanged, and a second access to `c` returns the stored
    value. -/
theorem generated_artifacts_reused_witness :
    everything_call extPure stCached "f" [PyVal.int 2] [] =
      (match extPure.applyF () [PyVal.int 2] [] with
       | some r => Except.ok (r, stCached)
       | Option.none => Except.error stCached) ∧
    everything_getitem extPure stCached "c" = .ok (some (), stCached) := by
  constructor
  · exact (generated_artifacts_reused extPure stCached "f" [PyVal.int 1] [PyVal.int 2]
      [] [] "c").2.1 () rfl rfl rfl
  · exact (generated_artifacts_reused extPure stCached "f" [PyVal.int 1] [PyVal.int 2]
      [] [] "c").2.2.2 (some ()) rfl

/-! ### Constant lookup and its upper-case fallback -/

/-- Claim C8: in `_generate_constant`, after executing the cached constant
    source in a fresh namespace, the lookup returns the binding of the
    declared name whenever its key is present, and falls back to the
    upper-cased variant exactly when it is absent. -/
theorem constant_lookup_fallback {α : Type} (E : PyExt α) (st : EvState α)
    (const_name code : String) (env : List (String × α))
    (hcache : st.base.cache.lookup
        (_get_cache_path E.hashHex st.base.cacheDir const_name ("const_" ++ const_name)) =
      some code)
    (hexec : E.execO code [] = .ok env) :
    (env.lookup const_name = Option.none →
      everything_generate_constant E st const_name =
        .ok (env.lookup (pyUpper const_name),
          everything_add_to_context st "Constant" const_name
            ("value: " ++ E.pyStr (env.lookup (pyUpper const_name))))) ∧
    (∀ v, env.lookup const_name = some v →
      everything_generate_constant E st const_name =
        .ok (some v,
          everything_add_to_context st "Constant" const_name
            ("value: " ++ E.pyStr (some v)))) := by
  constructor
  · intro hnone
    simp only [everything_generate_constant, hcache, hexec, constLookup, hnone]
  · intro v hv
    simp only [everything_generate_constant, hcache, hexec, constLookup, hv]

/-- Witness for C8: the declared name `pi` is absent after execution, so the
    upper-cased binding `PI` is returned. -/
theorem constant_lookup_fallback_witness :
    everything_generate_constant extConst stConst "pi" =
      .ok (List.lookup (pyUpper "pi") [("PI", ())],
        everything_add_to_context stConst "Constant" "pi"
          ("value: " ++ extConst.pyStr (List.lookup (pyUpper "pi") [("PI", ())]))) ∧
    List.lookup (pyUpper "pi") [("PI", ())] = some () := by
  refine ⟨?_, by decide⟩
  exact (constant_lookup_fallback extConst stConst "pi" "PI = 3" [("PI", ())] rfl rfl).1 rfl

/-! ### Failed generation leaves the disk cache unchanged -/

theorem _load_from_cache_error_cache {α : Type} (E : PyExt α) (st : AnyState α)
    (p n : String) (s : AnyState α) (h : _load_from_cache E st p n = .error s) :
    s.cache = st.cache := by
  simp only [_load_from_cache] at h
  cases hl : st.cache.lookup p <;> simp only [hl] at h
  · cases h
  · rename_i code
    cases he : E.execO code st.env <;> simp only [he] at h
    · injection h with h2
      rw [← h2]
    · cases h

theorem _load_from_cache_ok_cache {α : Type} (E : PyExt α) (st : AnyState α)
    (p n : String) (c : Option α) (s : AnyState α)
    (h : _load_from_cache E st p n = .ok (c, s)) :
    s.cache = st.cache := by
  simp only [_load_from_cache] at h
  cases hl : st.cache.lookup p <;> simp only [hl] at h
  · simp only [Except.ok.injEq, Prod.mk.injEq] at h
    rw [← h.2]
  · rename_i code
    cases he : E.execO code st.env <;> simp only [he] at h
    · cases h
    · simp only [Except.ok.injEq, Prod.mk.injEq] at h
      rw [← h.2]

theorem _generate_code_error_cache {α : Type} (E : PyExt α) (st : AnyState α)
    (sp up : String) (s : AnyState α) (h : _generate_code E st sp up = .error s) :
    s.cache = st.cache := by
  simp only [_generate_code] at h
  cases hl : E.llm sp up <;> simp only [hl] at h
  · injection h with h2
    rw [← h2]
  · cases h

theorem _generate_code_ok_cache {α : Type} (E : PyExt α) (st : AnyState α)
    (sp up code : String) (s : AnyState α) (h : _generate_code E st sp up = .ok (code, s)) :
    s.cache = st.cache := by
  simp only [_generate_code] at h
  cases hl : E.llm sp up <;> simp only [hl] at h
  · cases h
  · simp only [Except.ok.injEq, Prod.mk.injEq] at h
    rw [← h.2]

theorem _execute_code_error_cache {α : Type} (E : PyExt α) (st : AnyState α)
    (code n : String) (s : AnyState α) (h : _execute_code E st code n = .error s) :
    s.cache = st.cache := by
  simp only [_execute_code] at h
  cases he : E.execO code st.env <;> simp only [he] at h
  · injection h with h2
    rw [← h2]
  · rename_i env1
    cases hn : env1.lookup n <;> simp only [hn] at h
    · injection h with h2
      rw [← h2]
    · cases h

theorem _execute_code_ok_cache {α : Type} (E : PyExt α) (st : AnyState α)
    (code n : String) (f : α) (s : AnyState α) (h : _execute_code E st code n = .ok (f, s)) :
    s.cache = st.cache := by
  simp only [_execute_code] at h
  cases he : E.execO code st.env <;> simp only [he] at h
  · cases h
  · rename_i env1
    cases hn : env1.lookup n <;> simp only [hn] at h
    · cases h
    · simp only [Except.ok.injEq, Prod.mk.injEq] at h
      rw [← h.2]

/-- The generate-execute-save tail: when it raises, `_save_to_cache` was not
    reached, so the cache is unchanged. -/
theorem pipeline_error_cache {α : Type} (E : PyExt α) (st : AnyState α)
    (sp up name cp : String) (st1 : AnyState α)
    (h : (match _generate_code E st sp up with
          | .error s => Except.error s
          | .ok (code, s) =>
            match _execute_code E s code name with
            | .error s2 => Except.error s2
            | .ok (impl, s2) => Except.ok (impl, _save_to_cache s2 cp code)) = .error st1) :
    st1.cache = st.cache := by
  cases hg : _generate_code E st sp up <;> simp only [hg] at h
  · injection h with h2
    rw [← h2]
    exact _generate_code_error_cache E st sp up _ hg
  · rename_i p
    obtain ⟨code, s⟩ := p
    cases he : _execute_code E s code name <;> simp only [he] at h
    · injection h with h2
      rw [← h2]
      exact (_execute_code_error_cache E s code name _ he).trans
        (_generate_code_ok_cache E st sp up code s hg)
    · cases h

theorem anything_generate_error_cache {α : Type} (E : PyExt α) (st : AnyState α)
    (func : PyFunc) (context cache_path : String) (st1 : AnyState α)
    (h : anything_generate E st func context cache_path = .error st1) :
    st1.cache = st.cache :=
  pipeline_error_cache E st anything_system_prompt
    (if context = "" then _get_function_signature func
     else "Context of related functions:\n" ++ context ++ "\n\nGenerate code for:\n" ++
       _get_function_signature func)
    func.name cache_path st1 h

/-- The `Everything` generate-execute-save tail behaves the same. -/
theorem ev_pipeline_error_cache {α : Type} (E : PyExt α) (st : EvState α)
    (sp up name cp item desc : String) (st1 : EvState α)
    (h : (match _generate_code E st.base sp up with
          | .error b => Except.error { st with base := b }
          | .ok (code, b) =>
            match _execute_code E b code name with
            | .error b2 => Except.error { st with base := b2 }
            | .ok (impl, b2) =>
              Except.ok (impl,
                everything_add_to_context { st with base := _save_to_cache b2 cp code }
                  item name desc)) = .error st1) :
    st1.base.cache = st.base.cache := by
  cases hg : _generate_code E st.base sp up <;> simp only [hg] at h
  · injection h with h2
    rw [← h2]
    exact _generate_code_error_cache E st.base sp up _ hg
  · rename_i p
    obtain ⟨code, b⟩ := p
    cases he : _execute_code E b code name <;> simp only [he] at h
    · injection h with h2
      rw [← h2]
      exact (_execute_code_error_cache E b code name _ he).trans
        (_generate_code_ok_cache E st.base sp up code b hg)
    · cases h

theorem everything_generate_function_miss_error_cache {α : Type} (E : PyExt α)
    (st : EvState α) (n : String) (a : List PyVal) (k : List (String × PyVal))
    (cp : String) (st1 : EvState α)
    (h : everything_generate_function_miss E st n a k cp = .error st1) :
    st1.base.cache = st.base.cache :=
  ev_pipeline_error_cache E st everything_system_prompt
    (if (k.map fun p => (p.1, p.2.pyTypeName)) = [] then
       everything_get_context_string st ++ "Function name: " ++ n ++
         ", argument types: args: " ++ pyReprStrList (a.map PyVal.pyTypeName)
     else
       everything_get_context_string st ++ "Function name: " ++ n ++
         ", argument types: args: " ++ pyReprStrList (a.map PyVal.pyTypeName) ++
         ", kwargs: " ++ pyReprStrDict (k.map fun p => (p.1, p.2.pyTypeName)))
    n cp "Function" (everything_shape_desc a k) st1 h

/-- Claim C10: function generation is atomic with respect to the cache store:
    when code generation fails or executing the generated source raises
    (including the target name being absent), `_save_to_cache` is never
    reached and the disk cache is unchanged — both in `Anything.__call__` and
    in `Everything._generate_function`. -/
theorem generation_failure_preserves_cache {α : Type} (E : PyExt α) :
    (∀ (st : AnyState α) (func : PyFunc) (context : String) (st1 : AnyState α),
      anything_call E st func context = .error st1 → st1.cache = st.cache) ∧
    (∀ (st : EvState α) (n : String) (a : List PyVal) (k : List (String × PyVal))
        (st1 : EvState α),
      everything_generate_function E st n a k = .error st1 →
        st1.base.cache = st.base.cache) := by
  constructor
  · intro st func context st1 h
    simp only [anything_call] at h
    cases hload : _load_from_cache E st
        (_get_cache_path E.hashHex st.cacheDir func.name
          (_get_function_signature func ++ context)) func.name <;>
      simp only [hload] at h
    · injection h with h2
      rw [← h2]
      exact _load_from_cache_error_cache E st _ _ _ hload
    · rename_i p
      obtain ⟨cached, s⟩ := p
      have hsc : s.cache = st.cache := _load_from_cache_ok_cache E st _ _ _ _ hload
      cases cached with
      | none =>
        simp only at h
        exact (anything_generate_error_cache E s func context _ st1 h).trans hsc
      | some f =>
        simp only at h
        cases htr : E.truthy f <;> simp only [htr, Bool.false_eq_true, if_false, if_true] at h
        · exact (anything_generate_error_cache E s func context _ st1 h).trans hsc
        · cases h
  · intro st n a k st1 h
    simp only [everything_generate_function] at h
    cases hload : _load_from_cache E st.base
        (_get_cache_path E.hashHex st.base.cacheDir n (_get_cache_key n a k)) n <;>
      simp only [hload] at h
    · injection h with h2
      rw [← h2]
      exact _load_from_cache_error_cache E st.base _ _ _ hload
    · rename_i p
      obtain ⟨cached, b⟩ := p
      have hsc : b.cache = st.base.cache := _load_from_cache_ok_cache E st.base _ _ _ _ hload
      cases cached with
      | none =>
        simp only at h
        exact (everything_generate_function_miss_error_cache E _ n a k _ st1 h).trans hsc
      | some f =>
        simp only at h
        cases htr : E.truthy f <;> simp only [htr, Bool.false_eq_true, if_false, if_true] at h
        · exact (everything_generate_function_miss_error_cache E _ n a k _ st1 h).trans hsc
        · cases h

/-- Witness for C10: with a failing endpoint, a fresh `Anything` call raises
    after one endpoint call and the (empty) cache is unchanged. -/
theorem generation_failure_preserves_cache_witness :
    anything_call extFail (AnyState.mk ".anything" [] [] 0 : AnyState Unit)
        (PyFunc.mk "f" "None" []) "" =
      .error (AnyState.mk ".anything" [] [] 1) ∧
    (AnyState.mk ".anything" [] [] 1 : AnyState Unit).cache =
      (AnyState.mk ".anything" [] [] 0 : AnyState Unit).cache :=
  ⟨rfl, (generation_failure_preserves_cache extFail).1 (AnyState.mk ".anything" [] [] 0)
    (PyFunc.mk "f" "None" []) "" (AnyState.mk ".anything" [] [] 1) rfl⟩

/-- Claim C7 evaluated on the code: `Anything` and `LazyAnything` accept a
    `cache_dir` keyword and it becomes the cache directory, and `Everything`
    uses its own default when none is given — but `Everything(cache_dir=...)`
    raises `TypeError`, so `cache_dir` is not accepted on that surface. -/
theorem cache_dir_everything_init_bug (d : String) :
    anything_init_cache_dir [("cache_dir", d)] = .ok d ∧
    lazy_init_cache_dir [("cache_dir", d)] = .ok d ∧
    everything_init_cache_dir [] = .ok ".everything" ∧
    everything_init_cache_dir [("cache_dir", d)] =
      .error "TypeError: got multiple values for keyword argument cache_dir" := by
  refine ⟨?_, ?_, by rfl, ?_⟩ <;>
    simp [anything_init_cache_dir, lazy_init_cache_dir, base_init_cache_dir,
      everything_init_cache_dir, List.lookup]

example : _clean_code "```python\nx = 1\n```" = "x = 1" := by decide

example : _clean_code "```py\nx = 1\n```" = "py\nx = 1" := by decide

example : _get_cache_key "f" [PyVal.int 3, PyVal.str "a"] [("k", PyVal.bool true)] =
    "f_[\x27int\x27, \x27str\x27]_\x7b\x27k\x27: \x27bool\x27\x7d" := by decide
